import Mathlib

/-!
Verification of the rust-fcp-switching packet switch against its design
specification.  The Rust sources (src/data_packet.rs, examples/switch.rs,
examples/listen.rs) are shallowly embedded below: bytes are `Nat` values
below 256, `Vec<u8>` is `List Nat`, fallible or panicking code returns an
explicit result type, and external collaborators (the CryptoAuth secure
channel, the UDP socket, the thread-local RNG) are passed in as explicit
parameters.
-/

namespace FcpSwitching

/-- Result of running a piece of Rust code that may call a panicking macro
(`panic!`, `unimplemented!`, `assert_eq!`, or `Option::unwrap` /
`Result::unwrap` on an empty value).  `panicked` means the process
terminates. -/
inductive RunResult (α : Type) where
  | ok (val : α)
  | panicked (msg : String)
deriving DecidableEq, Repr

/-- Control packets (`ControlPacket` in control.rs; the enum shape is taken
from its uses in examples/switch.rs: `Ping { version, opaque_data }` and
`Pong { version, opaque_data }`). -/
inductive ControlPacket where
  | Ping (version : Nat) (opaque_data : List Nat)
  | Pong (version : Nat) (opaque_data : List Nat)
deriving DecidableEq, Repr

/-- Payload of a switch packet (`switch_packet::Payload`), as matched in
`Switch::on_self_interface_switch_packet` of examples/switch.rs:
a Control packet, a CryptoAuth handshake (raw bytes, no handle), or a
CryptoAuth data packet (32-bit session handle plus ciphertext). -/
inductive SwitchPayload where
  | Control (c : ControlPacket)
  | CryptoAuthHandshake (bytes : List Nat)
  | CryptoAuthData (handle : Nat) (bytes : List Nat)
deriving DecidableEq, Repr

/-- One entry of `Switch.inner_conns : HashMap<u32, ([u8; 8], Wrapper<()>)>`
(examples/switch.rs line 75).  The `Wrapper` session itself is external; the
only parts of it the switch code reads are the remote public key
(`their_pk()`) which we record directly. -/
structure InnerConn where
  handle : Nat
  path : List Nat
  their_pk : List Nat
deriving DecidableEq, Repr

/-- One entry of `Switch.interfaces` (examples/switch.rs lines 30-37): a
direct peer, with a 3-bit director id and a network address.  The outer
CryptoAuth session is external and not part of the state the routing logic
reads. -/
structure Iface where
  id : Nat
  addr : Nat
deriving DecidableEq, Repr

/-- `HashMap::get` / `contains_key` on the inner-connection table, embedded
over the list of entries. -/
def lookup_conn (conns : List InnerConn) (h : Nat) : Option InnerConn :=
  conns.find? (fun c => c.handle == h)

/-- `Switch::reverse_iface_id` (examples/switch.rs lines 95-107, and
identically examples/listen.rs lines 51-63): reverse the bits of a 3-bit
interface id, used to compute reverse paths.  An argument above 0b111
panics in the source, embedded as `none`. -/
def reverse_iface_id (iface_id : Nat) : Option Nat :=
  match iface_id with
  | 0 => some 0
  | 1 => some 4
  | 2 => some 2
  | 3 => some 6
  | 4 => some 1
  | 5 => some 5
  | 6 => some 3
  | 7 => some 7
  | _ => none

namespace DataPacket

/-- `DataPacket::version` (src/data_packet.rs lines 21-23): `self.raw[0] >> 3`.
Indexing an empty buffer panics in Rust. -/
def version (raw : List Nat) : RunResult Nat :=
  match raw with
  | [] => .panicked "index out of bounds"
  | b :: _ => .ok (b >>> 3)

/-- `DataPacket::unused1` (src/data_packet.rs lines 25-27):
`self.raw[0] & 0b00011111`. -/
def unused1 (raw : List Nat) : RunResult Nat :=
  match raw with
  | [] => .panicked "index out of bounds"
  | b :: _ => .ok (b &&& 31)

/-- `DataPacket::content_type` (src/data_packet.rs lines 33-35):
`BigEndian::read_u16(&self.raw[2..4])`.  Slicing `[2..4]` panics when the
buffer holds fewer than 4 bytes. -/
def content_type (raw : List Nat) : RunResult Nat :=
  match raw with
  | _ :: _ :: b2 :: b3 :: _ => .ok (b2 * 256 + b3)
  | _ => .panicked "slice index out of bounds"

end DataPacket

/-- A route packet (route_packet.rs is not under src/).
Modelled from the spec: section 3 describes a RouteFrame as carrying a
protocol version, a transaction id, an optional query string, an optional
target address, and for responses a list of NodeData entries. -/
structure RoutePacket where
  version : Nat
  transaction_id : List Nat
  query : Option String
  target_address : Option (List Nat)
deriving DecidableEq, Repr

/-- Result of `DataPacket::payload` (src/data_packet.rs lines 37-48): `Ok`
with a decoded route packet, `Err(())` when the route-packet decoder fails,
or a panic. -/
inductive PayloadResult where
  | ok (p : RoutePacket)
  | err
  | panicked (msg : String)
deriving DecidableEq, Repr

/-- `DataPacket::payload` (src/data_packet.rs lines 37-48).  The
route-packet decoder (`RoutePacket::decode`, not under src/) is passed in
as a parameter.  Content type 256 dispatches to that decoder on
`raw[4..]`; every other content type hits `unimplemented!()`, which
panics. -/
def DataPacket.payload (decodeRoute : List Nat → Except Unit RoutePacket)
    (raw : List Nat) : PayloadResult :=
  match DataPacket.content_type raw with
  | .panicked m => .panicked m
  | .ok ct =>
    if ct = 256 then
      match decodeRoute (raw.drop 4) with
      | .ok p => .ok p
      | .error _ => .err
    else .panicked "not implemented"

/-- One entry of a get-peers response node list (`NodeData` in
route_packet.rs, not under src/; the three fields are exactly the ones
examples/switch.rs constructs: a 32-byte public key, an 8-byte path, and a
version). -/
structure NodeData where
  public_key : List Nat
  path : List Nat
  version : Nat
deriving DecidableEq, Repr

/-- The path literal `[0, 0, 0, 0, 0, 0, 0, 0b001]` the switch advertises
for itself in a get-peers response (examples/switch.rs line 156). -/
def self_path : List Nat := [0, 0, 0, 0, 0, 0, 0, 1]

/-- The entry for self pushed first in `Switch::reply_getpeers`
(examples/switch.rs lines 150-159): own public key, the self path, and
version 18. -/
def selfNodeData (my_pk : List Nat) : NodeData :=
  { public_key := my_pk, path := self_path, version := 18 }

/-- The entry built for one inner connection in `Switch::reply_getpeers`
(examples/switch.rs lines 164-170): that flow's remote public key
(`inner_conn.their_pk()`), its recorded reverse label (`path`), and
version 18. -/
def peerNodeData (c : InnerConn) : NodeData :=
  { public_key := c.their_pk, path := c.path, version := 18 }

/-- The node list built by `Switch::reply_getpeers` (examples/switch.rs
lines 149-173): the entry for self, then one entry per inner connection
whose handle differs from the querying connection's handle.  The HashMap
iteration is embedded as iteration over the entry list. -/
def getpeers_nodes (my_pk : List Nat) (conns : List InnerConn)
    (handle : Nat) : List NodeData :=
  selfNodeData my_pk :: (conns.filter (fun c => c.handle != handle)).map peerNodeData

/-- A routing decision of the label router (`operation::RoutingDecision`).
The source constructor `SelfInterface` carries data the examples ignore. -/
inductive RoutingDecision where
  | SelfInterface
  | Forward (director : Nat)
deriving DecidableEq, Repr

/-- Modelled from the spec: the label router (operation.rs) is not under
src/.  Section 3 reads a label most-significant hop first, and section 8
states that routing a frame whose topmost director window equals 0 yields
SelfInterface regardless of other bits.  On an 8-byte big-endian label the
topmost 3-bit director window is the top 3 bits of the first byte. -/
def topmost_director (label : List Nat) : Option Nat :=
  match label with
  | b :: _ => some (b >>> 5)
  | [] => none

/-- Modelled from the spec: the switching decision of section 4.2 at the
topmost window — director 0 means self, any other director means forward
to that director. -/
def spec_switch_decision (label : List Nat) : Option RoutingDecision :=
  (topmost_director label).map (fun d => if d = 0 then .SelfInterface else .Forward d)

/-- Total version of the director bit-reversal table, for in-range
arguments (the last arm collapses 7 and the unreachable out-of-range
case). -/
def dir_rev_table (d : Nat) : Nat :=
  match d with
  | 0 => 0
  | 1 => 4
  | 2 => 2
  | 3 => 6
  | 4 => 1
  | 5 => 5
  | 6 => 3
  | _ => 7

/-- Reverse `w` successive 3-bit windows of `x`, starting from the least
significant bits, replacing each director by its bit-reversal and
preserving window order. -/
def reverse_label_windows : Nat → Nat → Nat
  | 0, _ => 0
  | w + 1, x => dir_rev_table (x % 8) + 8 * reverse_label_windows w (x / 8)

/-- Big-endian byte list to natural number. -/
def be_bytes_to_nat (l : List Nat) : Nat :=
  l.foldl (fun acc b => acc * 256 + b) 0

/-- Natural number (below 2^64) to 8 big-endian bytes. -/
def nat_to_be_bytes (n : Nat) : List Nat :=
  [n / 2 ^ 56 % 256, n / 2 ^ 48 % 256, n / 2 ^ 40 % 256, n / 2 ^ 32 % 256,
   n / 2 ^ 24 % 256, n / 2 ^ 16 % 256, n / 2 ^ 8 % 256, n % 256]

/-- Modelled from the spec: `operation::reverse_label` is not under src/.
Section 4.2: for every 3-bit window in the label, replace each director
value with its bit-reversal per the fixed table, preserving window order.
A 64-bit label holds 21 such windows; the leftover top bit is kept. -/
def spec_reverse_label (label : List Nat) : List Nat :=
  let x := be_bytes_to_nat label
  nat_to_be_bytes (reverse_label_windows 21 (x % 2 ^ 63) + 2 ^ 63 * (x / 2 ^ 63))

/-- Mutable state of the switch read and written by the dispatch logic
(examples/switch.rs lines 63-78); the socket and key material are
external. -/
structure SwitchState where
  interfaces : List Iface
  inner_conns : List InnerConn
deriving DecidableEq, Repr

/-- Observable actions of the self-interface dispatch, in order:
a reply switch packet handed to `Switch::send` with `from_interface`
0b001, a plaintext inner message fed to `Switch::on_inner_ca_message`,
or a log line. -/
inductive Effect where
  | SendCtrl (c : ControlPacket)
  | DeliverInner (handle : Nat) (msg : List Nat)
  | Log (line : String)
deriving DecidableEq, Repr

/-- External collaborators of the dispatch logic: the thread-local RNG as
a stream of u32 draws, the inner CryptoAuth `Wrapper::new_incoming_connection`
(returning the new session's remote public key and the first plaintext, or
`none` for a handshake error), the inner `Wrapper::unwrap_message` keyed by
handle, and a fuel bound for unrolling the handle-allocation loop. -/
structure Env where
  rng : Nat → Nat
  ca_new_incoming : List Nat → Option (List Nat × List Nat)
  ca_unwrap_inner : Nat → List Nat → Except String (List (List Nat))
  alloc_fuel : Nat

/-- Result of the handle-allocation loop (examples/switch.rs lines
260-266) unrolled for a given fuel: either the loop broke with a fresh
handle (also returning the next unused RNG index), or it was still
running after `fuel` draws.  The source loop has no other exit: there is
no retry cap and no failure path. -/
inductive AllocResult where
  | ok (handle : Nat) (next : Nat)
  | stillLooping
deriving DecidableEq, Repr

/-- The handle-allocation loop of the CryptoAuthHandshake arm
(examples/switch.rs lines 260-266): draw `rng`, retry while the handle is
already a key of the inner-connection table, break otherwise. -/
def alloc_handle (conns : List InnerConn) (rng : Nat → Nat) :
    Nat → Nat → AllocResult
  | _, 0 => .stillLooping
  | i, fuel + 1 =>
    let h := rng i
    if (lookup_conn conns h).isSome then alloc_handle conns rng (i + 1) fuel
    else .ok h (i + 1)

/-- `Switch::random_send_switch_ping` (examples/switch.rs lines 110-116):
when the u32 draw exceeds 0xafffffff, emit a Ping with version 18 and
opaque data [1,2,3,4,5,6,7,8] as a reply. -/
def random_send_switch_ping (draw : Nat) : List Effect :=
  if 0xafffffff < draw then [.SendCtrl (.Ping 18 [1, 2, 3, 4, 5, 6, 7, 8])]
  else []

/-- Result of dispatching one self-addressed switch packet: the updated
state and the ordered effects, a panic, or (for the handle-allocation
loop) still looping after the fuel ran out. -/
inductive DispatchResult where
  | ok (st : SwitchState) (effs : List Effect)
  | panicked (msg : String)
  | looping
deriving DecidableEq, Repr

/-- `Switch::on_self_interface_switch_packet` (examples/switch.rs lines
239-296).  `label` is the received packet's label (`switch_packet.label()`).
Arm by arm: a Ping gets a Pong reply with version 18 echoing the opaque
data, then maybe a random Ping; a Pong is checked against
[1,2,3,4,5,6,7,8] by `assert_eq!` (panics on mismatch) and logged; a
CryptoAuthHandshake allocates a fresh handle, opens an incoming inner
session (`unwrap` panics on a handshake error), records the reversed label
as the connection's path, feeds the first plaintext to
`on_inner_ca_message`, then maybe a random Ping; CryptoAuthData looks the
handle up (an unknown handle panics), decrypts (`unwrap_message`; an error
panics), and feeds each plaintext to `on_inner_ca_message`. -/
def on_self_interface_switch_packet (env : Env) (st : SwitchState)
    (label : List Nat) (p : SwitchPayload) : DispatchResult :=
  match p with
  | .Control (.Ping _v opaque_data) =>
    .ok st ([.SendCtrl (.Pong 18 opaque_data)] ++ random_send_switch_ping (env.rng 0))
  | .Control (.Pong _v opaque_data) =>
    if opaque_data = [1, 2, 3, 4, 5, 6, 7, 8] then .ok st [.Log "Received pong"]
    else .panicked "assertion failed: opaque_data equals expected probe"
  | .CryptoAuthHandshake handshake =>
    match alloc_handle st.inner_conns env.rng 0 env.alloc_fuel with
    | .stillLooping => .looping
    | .ok handle next =>
      match env.ca_new_incoming handshake with
      | none => .panicked "called unwrap on an Err value"
      | some (their_pk, inner_packet) =>
        let path := spec_reverse_label label
        let st' : SwitchState :=
          { st with inner_conns :=
              st.inner_conns ++ [{ handle := handle, path := path, their_pk := their_pk }] }
        .ok st' ([.DeliverInner handle inner_packet] ++ random_send_switch_ping (env.rng next))
  | .CryptoAuthData handle ca_message =>
    match lookup_conn st.inner_conns handle with
    | none => .panicked "Received unknown handle."
    | some _ =>
      match env.ca_unwrap_inner handle ca_message with
      | .error _ => .panicked "CA error"
      | .ok inner_packets =>
        .ok st (inner_packets.map (fun m => .DeliverInner handle m))

/-- The `RoutingDecision::Forward` arm of `Switch::send` (examples/switch.rs
lines 127-143): iterate over all interfaces, transmit through every one
whose id equals the director; if none matched, panic.  Returns the
matching interfaces the packet was sent through. -/
def send_forward (interfaces : List Iface) (iface_id : Nat) :
    RunResult (List Iface) :=
  let matching := interfaces.filter (fun i => i.id == iface_id)
  if matching.isEmpty then .panicked "Iface not found for packet"
  else .ok matching

/-- The lowest-free director id computation of
`Switch::get_incoming_iface_and_open` (examples/switch.rs line 321):
`(0..0b1000).filter(|candidate| no interface has this id).next()`. -/
def next_iface_id (interfaces : List Iface) : Option Nat :=
  ((List.range 8).filter
    (fun candidate => interfaces.all (fun i => i.id != candidate))).head?

/-- `Switch::get_incoming_iface_and_open` (examples/switch.rs lines
300-328).  `outer_unwrap` is the known interface's
`ca_session.unwrap_message(buf)` and `ca_open` the
`Wrapper::new_incoming_connection` outcome for an unknown source address
(`none` meaning a handshake error; both are followed by `unwrap`, which
panics on failure).  Returns the updated interface list, the director id
of the interface the datagram arrived on, and the plaintext messages. -/
def get_incoming_iface_and_open (interfaces : List Iface) (from_addr : Nat)
    (outer_unwrap : Except String (List (List Nat)))
    (ca_open : Option (List Nat)) :
    RunResult (List Iface × Nat × List (List Nat)) :=
  if interfaces.any (fun i => i.addr == from_addr) then
    match outer_unwrap with
    | .error _ => .panicked "called unwrap on an Err value"
    | .ok messages =>
      match interfaces.find? (fun i => i.addr == from_addr) with
      | some interface => .ok (interfaces, interface.id, messages)
      | none => .panicked "The impossible happened."
  else
    match next_iface_id interfaces with
    | none => .panicked "called unwrap on a None value"
    | some next_id =>
      match ca_open with
      | none => .panicked "called unwrap on an Err value"
      | some message =>
        .ok (interfaces ++ [{ id := next_id, addr := from_addr }], next_id, [message])

end FcpSwitching

namespace FcpSwitching

/-- C5: For every 3-bit director value d in 0..=7, `reverse_iface_id` maps d
per the fixed table 0↦0, 1↦4, 2↦2, 3↦6, 4↦1, 5↦5, 6↦3, 7↦7, and applying it
twice yields d again: the table is its own inverse. -/
theorem reverse_iface_id_table_involutive :
    (reverse_iface_id 0 = some 0 ∧ reverse_iface_id 1 = some 4 ∧
     reverse_iface_id 2 = some 2 ∧ reverse_iface_id 3 = some 6 ∧
     reverse_iface_id 4 = some 1 ∧ reverse_iface_id 5 = some 5 ∧
     reverse_iface_id 6 = some 3 ∧ reverse_iface_id 7 = some 7) ∧
    ∀ d, d < 8 → (reverse_iface_id d).bind reverse_iface_id = some d := by
  decide

/-- Witness for C5 at the concrete director 3: the involution holds there. -/
theorem reverse_iface_id_table_involutive_witness :
    (reverse_iface_id 3).bind reverse_iface_id = some 3 :=
  reverse_iface_id_table_involutive.2 3 (by decide)

/-- C10: for a non-empty raw buffer whose first byte is b, `version` returns
the top five bits `b >>> 3` and `unused1` the low five bits `b &&& 31`; the
two fields overlap in bits 3 and 4 of the byte, so `version % 4 = unused1 / 8`
always — the header byte is not partitioned into disjoint 5-bit fields. -/
theorem version_unused1_overlap (b : Nat) (rest : List Nat) (_hb : b < 256) :
    DataPacket.version (b :: rest) = .ok (b >>> 3) ∧
    DataPacket.unused1 (b :: rest) = .ok (b &&& 31) ∧
    (b >>> 3) % 4 = (b &&& 31) / 8 := by
  refine ⟨rfl, rfl, ?_⟩
  have h1 : b >>> 3 = b / 8 := Nat.shiftRight_eq_div_pow b 3
  have h2 : b &&& 31 = b % 32 := Nat.and_pow_two_sub_one_eq_mod b 5
  rw [h1, h2]
  omega

/-- Witness for C10 at the concrete byte 0b10110101 = 181: version is 22,
unused1 is 21, and 22 % 4 = 21 / 8 = 2. -/
theorem version_unused1_overlap_witness :
    DataPacket.version [181] = .ok 22 ∧
    DataPacket.unused1 [181] = .ok 21 ∧ 22 % 4 = 21 / 8 := by
  have h := version_unused1_overlap 181 [] (by decide)
  have e1 : (181 : Nat) >>> 3 = 22 := by decide
  have e2 : (181 : Nat) &&& 31 = 21 := by decide
  rw [e1, e2] at h
  exact ⟨h.1, h.2.1, by decide⟩

/-- C2 (code bug): decoding is not total.  A DataPacket with content type
257 (raw bytes [16, 0, 1, 1]) reaches `unimplemented!()` and panics instead
of failing with UnsupportedContentType, and field access on a truncated
buffer panics with an out-of-bounds slice instead of a MalformedFrame
error. -/
theorem payload_panics_on_content_type_257 :
    DataPacket.payload (fun _ => .error ()) [16, 0, 1, 1] =
      .panicked "not implemented" ∧
    DataPacket.content_type [] = .panicked "slice index out of bounds" := by
  constructor <;> rfl

/-- C1: with the inner-connection table holding exactly the two connections
cA and cB (in either order) and a get-peers query received over cA, the
response node list is the self entry followed by cB's entry — so it
contains self, one entry per connection other than cA carrying that flow's
remote public key and recorded reverse label, and no entry for cA; in
particular no listed public key is cA's (when keys are distinct). -/
theorem getpeers_excludes_querier (my_pk : List Nat) (cA cB : InnerConn)
    (conns : List InnerConn)
    (horder : conns = [cA, cB] ∨ conns = [cB, cA])
    (hne : cA.handle ≠ cB.handle) :
    getpeers_nodes my_pk conns cA.handle =
      [selfNodeData my_pk, peerNodeData cB] ∧
    (cA.their_pk ≠ cB.their_pk → cA.their_pk ≠ my_pk →
      ∀ nd ∈ getpeers_nodes my_pk conns cA.handle,
        nd.public_key ≠ cA.their_pk) := by
  have hBA : (cB.handle != cA.handle) = true := by
    simp [bne_iff_ne]
    exact fun h => hne h.symm
  have hAA : (cA.handle != cA.handle) = false := by simp
  have hmain : getpeers_nodes my_pk conns cA.handle =
      [selfNodeData my_pk, peerNodeData cB] := by
    rcases horder with h | h <;> subst h <;>
      simp [getpeers_nodes, List.filter, hAA, hBA]
  refine ⟨hmain, ?_⟩
  intro hpkB hpkSelf nd hnd
  rw [hmain] at hnd
  simp only [List.mem_cons, List.not_mem_nil, or_false] at hnd
  rcases hnd with h | h
  · subst h
    simpa [selfNodeData] using fun h => hpkSelf h.symm
  · subst h
    simpa [peerNodeData] using fun h => hpkB h.symm

/-- Witness for C1 at a concrete two-connection table: querying over
handle 10 yields the self entry plus connection 11's entry, and never
lists the querier's public key. -/
theorem getpeers_excludes_querier_witness :
    getpeers_nodes [1] [⟨10, [0, 0, 0, 0, 0, 0, 0, 2], [2]⟩,
        ⟨11, [0, 0, 0, 0, 0, 0, 0, 3], [3]⟩] 10 =
      [selfNodeData [1], peerNodeData ⟨11, [0, 0, 0, 0, 0, 0, 0, 3], [3]⟩] ∧
    ∀ nd ∈ getpeers_nodes [1] [⟨10, [0, 0, 0, 0, 0, 0, 0, 2], [2]⟩,
        ⟨11, [0, 0, 0, 0, 0, 0, 0, 3], [3]⟩] 10,
      nd.public_key ≠ [2] := by
  have h := getpeers_excludes_querier [1]
    ⟨10, [0, 0, 0, 0, 0, 0, 0, 2], [2]⟩
    ⟨11, [0, 0, 0, 0, 0, 0, 0, 3], [3]⟩
    [⟨10, [0, 0, 0, 0, 0, 0, 0, 2], [2]⟩, ⟨11, [0, 0, 0, 0, 0, 0, 0, 3], [3]⟩]
    (Or.inl rfl) (by decide)
  exact ⟨h.1, h.2 (by decide) (by decide)⟩

/-- C6: in every get-peers response the switch builds, the entry for self
is the head of the node list and carries the path [0,0,0,0,0,0,0,1], whose
topmost 3-bit director window is 0 — the director-0 path, routed to the
self interface by the spec's switching rule (one hop, self). -/
theorem getpeers_self_entry_director_zero (my_pk : List Nat)
    (conns : List InnerConn) (handle : Nat) :
    (getpeers_nodes my_pk conns handle).head? = some (selfNodeData my_pk) ∧
    (selfNodeData my_pk).path = [0, 0, 0, 0, 0, 0, 0, 1] ∧
    topmost_director (selfNodeData my_pk).path = some 0 ∧
    spec_switch_decision (selfNodeData my_pk).path = some .SelfInterface :=
  ⟨rfl, rfl, rfl, rfl⟩

/-- C3: a Control Ping with version 18 and any opaque bytes, delivered to
the self interface, never panics and produces exactly one Control Pong
reply; that Pong carries version 18 and opaque bytes identical to the
Ping's. -/
theorem ping_produces_one_echoing_pong (env : Env) (st : SwitchState)
    (label : List Nat) (opaque_data : List Nat) :
    on_self_interface_switch_packet env st label
        (.Control (.Ping 18 opaque_data)) =
      .ok st (.SendCtrl (.Pong 18 opaque_data)
                :: random_send_switch_ping (env.rng 0)) ∧
    ∀ effs, on_self_interface_switch_packet env st label
        (.Control (.Ping 18 opaque_data)) = .ok st effs →
      effs.filter
          (fun e => match e with
            | .SendCtrl (.Pong _ _) => true
            | _ => false) =
        [.SendCtrl (.Pong 18 opaque_data)] := by
  refine ⟨rfl, ?_⟩
  intro effs heq
  have heffs : effs = .SendCtrl (.Pong 18 opaque_data)
      :: random_send_switch_ping (env.rng 0) := by
    have h0 : on_self_interface_switch_packet env st label
        (.Control (.Ping 18 opaque_data)) =
      .ok st (.SendCtrl (.Pong 18 opaque_data)
                :: random_send_switch_ping (env.rng 0)) := rfl
    rw [h0] at heq
    injection heq with _ h
    exact h.symm
  subst heffs
  unfold random_send_switch_ping
  split <;> simp

/-- Witness for C3 at the concrete nonce [1, 2, 3] and an RNG that draws 0
(no random ping): the dispatch yields exactly the one echoing Pong. -/
theorem ping_produces_one_echoing_pong_witness :
    on_self_interface_switch_packet
        ⟨fun _ => 0, fun _ => none, fun _ _ => .error "", 0⟩ ⟨[], []⟩ []
        (.Control (.Ping 18 [1, 2, 3])) =
      .ok ⟨[], []⟩ [.SendCtrl (.Pong 18 [1, 2, 3])] ∧
    List.filter
        (fun e => match e with
          | .SendCtrl (.Pong _ _) => true
          | _ => false)
        [Effect.SendCtrl (.Pong 18 [1, 2, 3])] =
      [.SendCtrl (.Pong 18 [1, 2, 3])] := by
  have h := ping_produces_one_echoing_pong
    ⟨fun _ => 0, fun _ => none, fun _ _ => .error "", 0⟩ ⟨[], []⟩ [] [1, 2, 3]
  refine ⟨by simpa [random_send_switch_ping] using h.1, ?_⟩
  exact h.2 [Effect.SendCtrl (.Pong 18 [1, 2, 3])]
    (by simpa [random_send_switch_ping] using h.1)

/-- C8 counterexample: a Control Pong whose opaque bytes are [9] (not the
expected probe [1,2,3,4,5,6,7,8]) makes Pong processing panic — the
`assert_eq!` terminates the process, so Pong processing is not free of
process termination. -/
theorem pong_mismatched_nonce_terminates :
    on_self_interface_switch_packet
        ⟨fun _ => 0, fun _ => none, fun _ _ => .error "", 0⟩
        ⟨[], []⟩ [0, 0, 0, 0, 0, 0, 0, 0]
        (.Control (.Pong 18 [9])) =
      .panicked "assertion failed: opaque_data equals expected probe" := by
  rfl

/-- C8 amended: Pong processing checks the opaque nonce against the
expected probe value [1,2,3,4,5,6,7,8] with an assertion: a matching nonce
is only logged (no reply, no state change, no termination), while a
mismatched nonce fails the assertion and terminates the process. -/
theorem pong_nonce_check_asserts (env : Env) (st : SwitchState)
    (label : List Nat) (v : Nat) (opaque_data : List Nat) :
    (opaque_data = [1, 2, 3, 4, 5, 6, 7, 8] →
      on_self_interface_switch_packet env st label
          (.Control (.Pong v opaque_data)) = .ok st [.Log "Received pong"]) ∧
    (opaque_data ≠ [1, 2, 3, 4, 5, 6, 7, 8] →
      on_self_interface_switch_packet env st label
          (.Control (.Pong v opaque_data)) =
        .panicked "assertion failed: opaque_data equals expected probe") := by
  constructor <;> intro h <;>
    simp [on_self_interface_switch_packet, h]

/-- Witness for C8's amended claim at a matching and at a mismatched
nonce. -/
theorem pong_nonce_check_asserts_witness :
    on_self_interface_switch_packet
        ⟨fun _ => 0, fun _ => none, fun _ _ => .error "", 0⟩ ⟨[], []⟩ []
        (.Control (.Pong 18 [1, 2, 3, 4, 5, 6, 7, 8])) =
      .ok ⟨[], []⟩ [.Log "Received pong"] ∧
    on_self_interface_switch_packet
        ⟨fun _ => 0, fun _ => none, fun _ _ => .error "", 0⟩ ⟨[], []⟩ []
        (.Control (.Pong 18 [0])) =
      .panicked "assertion failed: opaque_data equals expected probe" :=
  ⟨(pong_nonce_check_asserts ⟨fun _ => 0, fun _ => none, fun _ _ => .error "", 0⟩
      ⟨[], []⟩ [] 18 [1, 2, 3, 4, 5, 6, 7, 8]).1 rfl,
   (pong_nonce_check_asserts ⟨fun _ => 0, fun _ => none, fun _ _ => .error "", 0⟩
      ⟨[], []⟩ [] 18 [0]).2 (by decide)⟩

/-- C4: a CryptoAuthData frame whose handle has no entry in the
inner-connection table panics (terminates the process), and the Forward
arm of `Switch::send` panics when no registered interface holds the
director — neither case drops the frame and continues. -/
theorem unknown_handle_and_unroutable_director_panic
    (env : Env) (st : SwitchState) (label : List Nat)
    (handle : Nat) (ca_message : List Nat)
    (hh : lookup_conn st.inner_conns handle = none)
    (interfaces : List Iface) (director : Nat)
    (hd : ∀ i ∈ interfaces, i.id ≠ director) :
    on_self_interface_switch_packet env st label
        (.CryptoAuthData handle ca_message) =
      .panicked "Received unknown handle." ∧
    send_forward interfaces director = .panicked "Iface not found for packet" := by
  constructor
  · simp [on_self_interface_switch_packet, hh]
  · have hempty : interfaces.filter (fun i => i.id == director) = [] := by
      rw [List.filter_eq_nil_iff]
      intro i hi
      simpa using hd i hi
    simp [send_forward, hempty]

/-- Helper: the allocation loop only ever breaks with a handle that is not
a key of the inner-connection table. -/
theorem alloc_handle_ok_fresh (conns : List InnerConn) (rng : Nat → Nat) :
    ∀ fuel i h j, alloc_handle conns rng i fuel = .ok h j →
      lookup_conn conns h = none := by
  intro fuel
  induction fuel with
  | zero =>
    intro i h j hx
    simp [alloc_handle] at hx
  | succ fuel ih =>
    intro i h j hx
    simp only [alloc_handle] at hx
    by_cases hc : (lookup_conn conns (rng i)).isSome
    · rw [if_pos hc] at hx
      exact ih _ _ _ hx
    · rw [if_neg hc] at hx
      injection hx with hh _
      rw [← hh]
      exact Option.not_isSome_iff_eq_none.mp hc

/-- Helper: when every draw collides with an existing handle the loop is
still running after any amount of fuel — it has no cap and no failure
exit. -/
theorem alloc_handle_collides_forever (conns : List InnerConn)
    (rng : Nat → Nat) (hcoll : ∀ i, (lookup_conn conns (rng i)).isSome = true) :
    ∀ fuel i, alloc_handle conns rng i fuel = .stillLooping := by
  intro fuel
  induction fuel with
  | zero => intro i; rfl
  | succ fuel ih =>
    intro i
    simp only [alloc_handle]
    rw [if_pos (hcoll i)]
    exact ih (i + 1)

/-- C9 counterexample: the allocation loop does not cap its retries and
never fails closed.  With one connection holding handle 5 and an RNG that
always draws 5, the loop is still retrying after 2^32 + 1 draws — more
draws than the entire 32-bit handle space — instead of failing closed. -/
theorem alloc_handle_no_retry_cap :
    alloc_handle [⟨5, [], []⟩] (fun _ => 5) 0 (2 ^ 32 + 1) = .stillLooping :=
  alloc_handle_collides_forever [⟨5, [], []⟩] (fun _ => 5)
    (fun _ => show (lookup_conn [⟨5, [], []⟩] 5).isSome = true by decide)
    (2 ^ 32 + 1) 0

/-- C9 amended: any handle the retry loop returns is not already in use
among active inner connections, but the loop is unbounded — it has no
retry cap and no fail-closed exit, and with persistently colliding draws
it is still looping after any number of iterations. -/
theorem alloc_handle_fresh_but_unbounded :
    (∀ conns rng fuel i h j,
      alloc_handle conns rng i fuel = AllocResult.ok h j →
        lookup_conn conns h = none) ∧
    (∀ fuel i, alloc_handle [⟨5, [], []⟩] (fun _ => 5) i fuel = .stillLooping) :=
  ⟨fun conns rng fuel i h j hx => alloc_handle_ok_fresh conns rng fuel i h j hx,
   fun fuel i => alloc_handle_collides_forever [⟨5, [], []⟩] (fun _ => 5)
     (fun _ => show (lookup_conn [⟨5, [], []⟩] 5).isSome = true by decide)
     fuel i⟩

/-- Witness for C9's amended claim: a loop run over the empty table
returns the first draw, which is fresh, and the colliding run at fuel 3 is
still looping. -/
theorem alloc_handle_fresh_but_unbounded_witness :
    lookup_conn [] 7 = none ∧
    alloc_handle [⟨5, [], []⟩] (fun _ => 5) 0 3 = .stillLooping :=
  ⟨alloc_handle_fresh_but_unbounded.1 [] (fun _ => 7) 1 0 7 1 (by decide),
   alloc_handle_fresh_but_unbounded.2 3 0⟩

/-- Helper: the head of `(List.range k).filter p` is the least value below
`k` satisfying `p`. -/
theorem head_filter_range_spec (p : Nat → Bool) :
    ∀ k n, ((List.range k).filter p).head? = some n →
      p n = true ∧ n < k ∧ ∀ m, m < n → p m = false := by
  intro k
  induction k with
  | zero =>
    intro n h
    simp [List.range_zero] at h
  | succ k ih =>
    intro n h
    rw [List.range_succ, List.filter_append] at h
    cases hfk : (List.range k).filter p with
    | nil =>
      rw [hfk, List.nil_append] at h
      by_cases hpk : p k
      · simp only [List.filter, hpk, List.head?] at h
        have hkn : k = n := by injection h
        refine ⟨by rw [← hkn]; exact hpk, by omega, ?_⟩
        intro m hm
        have hmk : m < k := by omega
        have hall := List.filter_eq_nil_iff.mp hfk
        exact Bool.eq_false_iff.mpr (hall m (List.mem_range.mpr hmk))
      · simp [List.filter, hpk] at h
    | cons a t =>
      rw [hfk] at h
      have han : a = n := by
        simp only [List.cons_append, List.head?] at h
        injection h
      obtain ⟨hpa, hak, hleast⟩ := ih a (by rw [hfk]; rfl)
      exact ⟨by rw [← han]; exact hpa, by omega,
        fun m hm => hleast m (by omega)⟩

/-- C7: an inbound datagram from an address matching no registered
interface, whose handshake is accepted, registers exactly one new
interface, whose director id is the lowest 3-bit value not used by any
existing interface; director ids therefore stay unique. -/
theorem incoming_handshake_registers_lowest_free_id
    (interfaces : List Iface) (from_addr : Nat)
    (outer_unwrap : Except String (List (List Nat))) (message : List Nat)
    (hunknown : ∀ i ∈ interfaces, i.addr ≠ from_addr)
    (c : Nat) (hc8 : c < 8) (hcfree : ∀ i ∈ interfaces, i.id ≠ c) :
    ∃ n, get_incoming_iface_and_open interfaces from_addr outer_unwrap
          (some message) =
        .ok (interfaces ++ [({ id := n, addr := from_addr } : Iface)], n, [message]) ∧
      n < 8 ∧ (∀ i ∈ interfaces, i.id ≠ n) ∧
      (∀ m, m < n → ∃ i ∈ interfaces, i.id = m) ∧
      ((interfaces.map Iface.id).Nodup →
        ((interfaces ++ [({ id := n, addr := from_addr } : Iface)]).map Iface.id).Nodup) := by
  have hpc : (interfaces.all fun i => i.id != c) = true := by
    rw [List.all_eq_true]
    intro i hi
    simpa using hcfree i hi
  have hne : ((List.range 8).filter
      (fun candidate => interfaces.all fun i => i.id != candidate)) ≠ [] :=
    List.ne_nil_of_mem (List.mem_filter.mpr ⟨List.mem_range.mpr hc8, hpc⟩)
  have hsome : ((List.range 8).filter
      (fun candidate => interfaces.all fun i => i.id != candidate)).head? ≠
        none := by
    simpa [List.head?_eq_none_iff] using hne
  obtain ⟨n, hn⟩ := Option.ne_none_iff_exists.mp hsome
  have hn' : next_iface_id interfaces = some n := by
    rw [next_iface_id, ← hn]
  obtain ⟨hpn, hn8, hleast⟩ := head_filter_range_spec _ 8 n hn.symm
  have hfree : ∀ i ∈ interfaces, i.id ≠ n := by
    intro i hi
    have := List.all_eq_true.mp hpn i hi
    simpa using this
  have hany : (interfaces.any fun i => i.addr == from_addr) = false := by
    rw [List.any_eq_false]
    intro i hi
    simpa using hunknown i hi
  refine ⟨n, ?_, hn8, hfree, ?_, ?_⟩
  · simp [get_incoming_iface_and_open, hany, hn']
  · intro m hm
    have hpm := hleast m hm
    rw [List.all_eq_false] at hpm
    obtain ⟨i, hi, hpi⟩ := hpm
    exact ⟨i, hi, by simpa using hpi⟩
  · intro hnodup
    rw [List.map_append, List.nodup_append]
    refine ⟨hnodup, List.nodup_singleton _, ?_⟩
    intro x hx hx1
    simp only [List.map_cons, List.map_nil, List.mem_singleton] at hx1
    obtain ⟨i, hi, hix⟩ := List.mem_map.mp hx
    exact hfree i hi (by rw [hix, hx1])

/-- Witness for C7: one registered interface with director 0 at address
50; a datagram from address 99 with an accepted handshake registers one
interface with director 1 (the lowest free id). -/
theorem incoming_handshake_registers_lowest_free_id_witness :
    get_incoming_iface_and_open [⟨0, 50⟩] 99 (.ok []) (some [7]) =
      .ok ([⟨0, 50⟩, ⟨1, 99⟩], 1, [[7]]) := by
  obtain ⟨n, hmain, _, hfree, hlow, _⟩ :=
    incoming_handshake_registers_lowest_free_id [⟨0, 50⟩] 99 (.ok []) [7]
      (by decide) 1 (by decide) (by decide)
  have hn1 : n = 1 := by
    have h0 : n ≠ 0 := by
      intro h
      exact hfree ⟨0, 50⟩ (by simp) (by simp [h])
    by_contra hne1
    have h2 : 2 ≤ n := by omega
    obtain ⟨i, hi, hid⟩ := hlow 1 (by omega)
    simp only [List.mem_singleton] at hi
    subst hi
    simp at hid
  rw [hn1] at hmain
  exact hmain

/-- Witness for C4: an empty table and a single interface with director 3
make both an unknown-handle frame and a forward to director 5 panic. -/
theorem unknown_handle_and_unroutable_director_panic_witness :
    on_self_interface_switch_packet
        ⟨fun _ => 0, fun _ => none, fun _ _ => .error "", 0⟩
        ⟨[⟨3, 77⟩], []⟩ [] (.CryptoAuthData 42 [1, 2]) =
      .panicked "Received unknown handle." ∧
    send_forward [⟨3, 77⟩] 5 = .panicked "Iface not found for packet" :=
  unknown_handle_and_unroutable_director_panic
    ⟨fun _ => 0, fun _ => none, fun _ _ => .error "", 0⟩
    ⟨[⟨3, 77⟩], []⟩ [] 42 [1, 2] (by decide) [⟨3, 77⟩] 5 (by decide)

end FcpSwitching
